import Mathlib

/-!
Shallow embedding of the "100 Days Better Me" habit tracker (src/script.js).

The data model is `{ currentDay, streak, days, whyStarted }`; habit values are
JS numbers entered through `parseFloat`, modelled here by `JSNum`: an exact
rational (no rounding, fractional values compared exactly) or one of the two
infinities, which `parseFloat` can produce by overflow (`parseFloat("1e400")`
is `Infinity`); a `NaN` parse result is modelled as `none`, since the code
filters it with `isNaN` before any other use.  The sparse `days` object is
modelled as a
function `ℕ → Option DayRecord`.  Mutation of the global `appData` is modelled
by explicit state passing; an early `return` after an `alert` is modelled as an
error result with the state returned unchanged.
-/

/-- The five tracked habits (keys `sleep`, `water`, `workout`, `study`, `food`). -/
inductive HabitKind where
  | sleep
  | water
  | workout
  | study
  | food
deriving DecidableEq, Repr

/-- The order in which the source enumerates the habits
(`['sleep', 'water', 'workout', 'study', 'food']`). -/
def habitsList : List HabitKind :=
  [HabitKind.sleep, HabitKind.water, HabitKind.workout, HabitKind.study, HabitKind.food]

/-- A habit rule: a minimum threshold, and for `food` additionally a maximum. -/
structure HabitRule where
  min : ℚ
  max : Option ℚ
deriving DecidableEq, Repr

/-- The constant `HABIT_RULES` table of src/script.js. -/
def HABIT_RULES : HabitKind → HabitRule
  | HabitKind.sleep => ⟨7, none⟩
  | HabitKind.water => ⟨8, none⟩
  | HabitKind.workout => ⟨30, none⟩
  | HabitKind.study => ⟨60, none⟩
  | HabitKind.food => ⟨2000, some 2500⟩

/-- The `POINTS_PER_HABIT` constant. -/
def POINTS_PER_HABIT : ℕ := 20

/-- A non-NaN JS number as produced by `parseFloat`: a finite value (an exact
rational) or one of the two infinities (overflow such as `parseFloat("1e400")`
yields `Infinity`).  `NaN` is modelled as `none` wherever a parse result is
consumed, because the code filters it with `isNaN` before any other use. -/
inductive JSNum where
  | negInf
  | num (q : ℚ)
  | posInf
deriving DecidableEq, Repr

/-- The JS `<=` comparison on non-NaN numbers. -/
def JSNum.le : JSNum → JSNum → Bool
  | JSNum.negInf, _ => true
  | _, JSNum.posInf => true
  | JSNum.num a, JSNum.num b => a ≤ b
  | JSNum.posInf, _ => false
  | _, JSNum.negInf => false

/-- The JS `<` comparison on non-NaN numbers. -/
def JSNum.lt : JSNum → JSNum → Bool
  | _, JSNum.negInf => false
  | JSNum.posInf, _ => false
  | JSNum.negInf, _ => true
  | JSNum.num a, JSNum.num b => a < b
  | JSNum.num _, JSNum.posInf => true

theorem JSNum.le_num_num (a b : ℚ) :
    JSNum.le (JSNum.num a) (JSNum.num b) = decide (a ≤ b) := rfl

theorem JSNum.lt_num_num (a b : ℚ) :
    JSNum.lt (JSNum.num a) (JSNum.num b) = decide (a < b) := rfl

theorem JSNum.num_nonneg_not_lt_zero (v : ℚ) (hv : 0 ≤ v) :
    JSNum.lt (JSNum.num v) (JSNum.num 0) = false := by
  rw [JSNum.lt_num_num]
  exact decide_eq_false (not_lt.2 hv)

/-- One day's record: the five measurement fields (`null` = not logged),
the derived `completedHabits` map, the derived `score`, and the `completed` lock. -/
structure DayRecord where
  measurements : HabitKind → Option JSNum
  completedHabits : HabitKind → Bool
  score : ℕ
  completed : Bool

/-- The persisted application state `appData`. -/
structure ChallengeState where
  currentDay : ℕ
  streak : ℕ
  days : ℕ → Option DayRecord
  whyStarted : String

/-- The fresh default state (`currentDay: 1, streak: 0, days: {}, whyStarted: ""`). -/
def freshState : ChallengeState :=
  { currentDay := 1, streak := 0, days := fun _ => none, whyStarted := "" }

/-- The default `DayRecord` created on first access of a day
(`getCurrentDayData`, lines 54-69). -/
def defaultRecord : DayRecord :=
  { measurements := fun _ => none
    completedHabits := fun _ => false
    score := 0
    completed := false }

/-- Point update of the sparse day map (`appData.days[day] = ...`). -/
def setDay (days : ℕ → Option DayRecord) (d : ℕ) (r : DayRecord) : ℕ → Option DayRecord :=
  fun x => if x = d then some r else days x

/-- The function `getCurrentDayData()`: returns the current day's record, creating the
default record in the map first when the day is absent.  The possibly
modified state is returned alongside the record. -/
def getCurrentDayData (s : ChallengeState) : ChallengeState × DayRecord :=
  match s.days s.currentDay with
  | some r => (s, r)
  | none =>
      ({ s with days := setDay s.days s.currentDay defaultRecord }, defaultRecord)

/-- The function `isHabitCompleted(habit, value)`: `false` on an unset value; otherwise a
per-habit `switch` comparing against `HABIT_RULES` (for `food`, also the max). -/
def isHabitCompleted (habit : HabitKind) (value : Option JSNum) : Bool :=
  match value with
  | none => false
  | some v =>
    let rule := HABIT_RULES habit
    match habit with
    | HabitKind.sleep => JSNum.le (JSNum.num rule.min) v
    | HabitKind.water => JSNum.le (JSNum.num rule.min) v
    | HabitKind.workout => JSNum.le (JSNum.num rule.min) v
    | HabitKind.study => JSNum.le (JSNum.num rule.min) v
    | HabitKind.food =>
        JSNum.le (JSNum.num rule.min) v &&
          (rule.max.elim true (fun m => JSNum.le v (JSNum.num m)))

/-- The function `calculateHabitScore(habit, value)`: `POINTS_PER_HABIT` if completed, else 0. -/
def calculateHabitScore (habit : HabitKind) (value : Option JSNum) : ℕ :=
  if isHabitCompleted habit value then POINTS_PER_HABIT else 0

/-- The function `calculateDayScore(dayData)`: sum of `calculateHabitScore` over the five
habit measurement fields. -/
def calculateDayScore (dayData : DayRecord) : ℕ :=
  habitsList.foldl (fun totalScore habit =>
    totalScore + calculateHabitScore habit (dayData.measurements habit)) 0

/-- The function `areAllHabitsCompleted(dayData)`: every `completedHabits` entry is `true`. -/
def areAllHabitsCompleted (dayData : DayRecord) : Bool :=
  habitsList.all (fun habit => dayData.completedHabits habit)

/-- The errors `saveHabit` reports by alert-and-early-return. -/
inductive SaveError where
  | InvalidInput
  | DayLocked
deriving DecidableEq, Repr

/-- The record produced by the mutation block of `saveHabit` (lines 176-184):
store the value, recompute this habit's `completedHabits` entry, recompute `score`. -/
def applyHabit (dayData : DayRecord) (habit : HabitKind) (value : JSNum) : DayRecord :=
  let d1 := { dayData with
    measurements := fun x => if x = habit then some value else dayData.measurements x }
  let d2 := { d1 with
    completedHabits := fun x =>
      if x = habit then isHabitCompleted habit (some value) else d1.completedHabits x }
  { d2 with score := calculateDayScore d2 }

/-- The function `completeCurrentDay()`: mark the current day's record completed, increment
`streak`, and advance `currentDay` unless it is already 100. -/
def completeCurrentDay (s : ChallengeState) : ChallengeState :=
  let p := getCurrentDayData s
  let s1 : ChallengeState :=
    { p.1 with days := setDay p.1.days p.1.currentDay { p.2 with completed := true } }
  let s2 : ChallengeState := { s1 with streak := s1.streak + 1 }
  if s2.currentDay < 100 then { s2 with currentDay := s2.currentDay + 1 } else s2

/-- The function `saveHabit(habit)` with the parsed input made explicit: `none` stands for a
`NaN` parse result (`isNaN(parseFloat(...))`), and any other JS number —
infinities included — is a `JSNum`.
Validation; lock check on the (possibly freshly created) current record;
mutation via `applyHabit`; then `completeCurrentDay` when all habits are done.
Returns the new state and the error reported, if any. -/
def saveHabit (s : ChallengeState) (habit : HabitKind) (rawInput : Option JSNum) :
    ChallengeState × Option SaveError :=
  match rawInput with
  | none => (s, some SaveError.InvalidInput)
  | some value =>
    if JSNum.lt value (JSNum.num 0) then (s, some SaveError.InvalidInput)
    else
      let p := getCurrentDayData s
      if p.2.completed then (p.1, some SaveError.DayLocked)
      else
        let d3 := applyHabit p.2 habit value
        let s2 := { p.1 with days := setDay p.1.days p.1.currentDay d3 }
        if areAllHabitsCompleted d3 then (completeCurrentDay s2, none) else (s2, none)

/-- The backward walk of `updateStreak()` (lines 393-402): from day `d` downward,
count consecutive days whose record exists and is completed, stopping at the
first missing or incomplete day (or below day 1). -/
def streakFrom (days : ℕ → Option DayRecord) : ℕ → ℕ
  | 0 => 0
  | d + 1 =>
    match days (d + 1) with
    | some dayData => if dayData.completed then streakFrom days d + 1 else 0
    | none => 0

/-- The function `updateStreak()`: recompute `streak` by the backward walk from `currentDay`. -/
def updateStreak (s : ChallengeState) : ChallengeState :=
  { s with streak := streakFrom s.days s.currentDay }

/-- The core reset of `restartChallenge()` (lines 742-748): a brand-new state,
optionally keeping the motivation text. -/
def restartChallenge (s : ChallengeState) (keepMotivation : Bool) : ChallengeState :=
  { currentDay := 1, streak := 0, days := fun _ => none
    whyStarted := if keepMotivation then s.whyStarted else "" }

/-! ### Load-time normalization (`init`, lines 646-654)

`JSON.parse` can return anything; the stored fields are modelled as raw
values: `none` stands for a field that is not of number type (for `days`,
for a falsy/absent mapping).  `init` replaces a non-number or `< 1`
`currentDay` with 1, a non-number or `< 0` `streak` with 0, and a missing
`days` mapping with `{}`.  It imposes no upper bound on `currentDay`. -/

/-- A raw persisted blob as produced by `JSON.parse` on the stored value. -/
structure StoredBlob where
  currentDay : Option ℚ
  streak : Option ℚ
  days : Option (ℕ → Option DayRecord)
  whyStarted : String

/-- The state right after the validity-normalization block of `init`. -/
structure LoadedState where
  currentDay : ℚ
  streak : ℚ
  days : ℕ → Option DayRecord
  whyStarted : String

/-- The normalization block of `init` (lines 646-654):
`if (!appData.days) appData.days = {}`,
`if (typeof appData.currentDay !== 'number' || appData.currentDay < 1) appData.currentDay = 1`,
`if (typeof appData.streak !== 'number' || appData.streak < 0) appData.streak = 0`. -/
def initNormalize (b : StoredBlob) : LoadedState :=
  { days := b.days.getD (fun _ => none)
    currentDay :=
      match b.currentDay with
      | none => 1
      | some v => if v < 1 then 1 else v
    streak :=
      match b.streak with
      | none => 0
      | some v => if v < 0 then 0 else v
    whyStarted := b.whyStarted }

/-! ### Basic lemmas about the state operations -/

theorem setDay_same (days : ℕ → Option DayRecord) (d : ℕ) (r : DayRecord) :
    setDay days d r d = some r := by
  simp [setDay]

theorem setDay_ne (days : ℕ → Option DayRecord) (d : ℕ) (r : DayRecord) (x : ℕ)
    (hx : x ≠ d) : setDay days d r x = days x := by
  simp [setDay, hx]

theorem getCurrentDayData_of_some (s : ChallengeState) (r : DayRecord)
    (hr : s.days s.currentDay = some r) : getCurrentDayData s = (s, r) := by
  simp [getCurrentDayData, hr]

theorem getCurrentDayData_of_none (s : ChallengeState)
    (hr : s.days s.currentDay = none) :
    getCurrentDayData s =
      ({ s with days := setDay s.days s.currentDay defaultRecord }, defaultRecord) := by
  simp [getCurrentDayData, hr]

theorem getCurrentDayData_fst_currentDay (s : ChallengeState) :
    (getCurrentDayData s).1.currentDay = s.currentDay := by
  unfold getCurrentDayData
  cases h : s.days s.currentDay <;> simp

theorem getCurrentDayData_fst_streak (s : ChallengeState) :
    (getCurrentDayData s).1.streak = s.streak := by
  unfold getCurrentDayData
  cases h : s.days s.currentDay <;> simp

theorem getCurrentDayData_fst_whyStarted (s : ChallengeState) :
    (getCurrentDayData s).1.whyStarted = s.whyStarted := by
  unfold getCurrentDayData
  cases h : s.days s.currentDay <;> simp

theorem getCurrentDayData_fst_days_at (s : ChallengeState) :
    (getCurrentDayData s).1.days s.currentDay = some (getCurrentDayData s).2 := by
  unfold getCurrentDayData
  cases h : s.days s.currentDay <;> simp [h, setDay_same]

theorem getCurrentDayData_fst_days_ne (s : ChallengeState) (d : ℕ)
    (hd : d ≠ s.currentDay) : (getCurrentDayData s).1.days d = s.days d := by
  unfold getCurrentDayData
  cases h : s.days s.currentDay <;> simp [setDay_ne _ _ _ _ hd]

theorem completeCurrentDay_streak (s : ChallengeState) :
    (completeCurrentDay s).streak = s.streak + 1 := by
  simp only [completeCurrentDay]
  split <;> simp [getCurrentDayData_fst_streak]

theorem completeCurrentDay_whyStarted (s : ChallengeState) :
    (completeCurrentDay s).whyStarted = s.whyStarted := by
  simp only [completeCurrentDay]
  split <;> simp [getCurrentDayData_fst_whyStarted]

theorem completeCurrentDay_currentDay (s : ChallengeState) :
    (completeCurrentDay s).currentDay =
      if s.currentDay < 100 then s.currentDay + 1 else s.currentDay := by
  simp only [completeCurrentDay, getCurrentDayData_fst_currentDay]
  split <;> simp_all

theorem completeCurrentDay_days_at (s : ChallengeState) :
    (completeCurrentDay s).days s.currentDay =
      some { (getCurrentDayData s).2 with completed := true } := by
  simp only [completeCurrentDay, getCurrentDayData_fst_currentDay]
  split <;> simp [setDay_same]

theorem completeCurrentDay_days_ne (s : ChallengeState) (d : ℕ)
    (hd : d ≠ s.currentDay) : (completeCurrentDay s).days d = s.days d := by
  simp only [completeCurrentDay, getCurrentDayData_fst_currentDay]
  split <;>
    simp [setDay_ne _ _ _ _ hd, getCurrentDayData_fst_days_ne _ _ hd]

theorem applyHabit_measurements_self (r : DayRecord) (h : HabitKind) (v : JSNum) :
    (applyHabit r h v).measurements h = some v := by
  simp [applyHabit]

theorem applyHabit_measurements_ne (r : DayRecord) (h h' : HabitKind) (v : JSNum)
    (hne : h' ≠ h) : (applyHabit r h v).measurements h' = r.measurements h' := by
  simp [applyHabit, hne]

theorem applyHabit_completedHabits_self (r : DayRecord) (h : HabitKind) (v : JSNum) :
    (applyHabit r h v).completedHabits h = isHabitCompleted h (some v) := by
  simp [applyHabit]

theorem applyHabit_completedHabits_ne (r : DayRecord) (h h' : HabitKind) (v : JSNum)
    (hne : h' ≠ h) : (applyHabit r h v).completedHabits h' = r.completedHabits h' := by
  simp [applyHabit, hne]

theorem applyHabit_completed (r : DayRecord) (h : HabitKind) (v : JSNum) :
    (applyHabit r h v).completed = r.completed := rfl

theorem calculateDayScore_set_score (r : DayRecord) (n : ℕ) :
    calculateDayScore { r with score := n } = calculateDayScore r := rfl

theorem calculateDayScore_set_completed (r : DayRecord) (b : Bool) :
    calculateDayScore { r with completed := b } = calculateDayScore r := rfl

theorem applyHabit_score (r : DayRecord) (h : HabitKind) (v : JSNum) :
    (applyHabit r h v).score = calculateDayScore (applyHabit r h v) := rfl

/-! ### Concrete states used as witnesses and counterexamples -/

/-- Measurement values that satisfy every habit rule. -/
def goodVals : HabitKind → ℚ
  | HabitKind.sleep => 8
  | HabitKind.water => 8
  | HabitKind.workout => 30
  | HabitKind.study => 60
  | HabitKind.food => 2200

/-- A day record with all five habits logged and completed, not yet locked. -/
def fullRec : DayRecord :=
  { measurements := fun h => some (JSNum.num (goodVals h))
    completedHabits := fun _ => true
    score := 100
    completed := false }

/-- A fully completed, locked day record. -/
def doneRec : DayRecord := { fullRec with completed := true }

/-- A state on day 1 whose current record has all five habits completed. -/
def c1State : ChallengeState :=
  { currentDay := 1, streak := 0
    days := fun d => if d = 1 then some fullRec else none
    whyStarted := "" }

/-- A state whose current (day 1) record is already completed/locked. -/
def lockedState : ChallengeState :=
  { currentDay := 1, streak := 1
    days := fun d => if d = 1 then some doneRec else none
    whyStarted := "" }

/-- Days 1..3 completed, `currentDay = 4`, day 4 absent (the §8 streak scenario). -/
def c3State : ChallengeState :=
  { currentDay := 4, streak := 3
    days := fun d => if d = 1 ∨ d = 2 ∨ d = 3 then some doneRec else none
    whyStarted := "" }

/-! ### Claim theorems -/

/-- Claim C1: invoked on a state whose current day's record exists with all five
habits completed, `completeCurrentDay` sets that record's `completed` field to
`true`, increments `streak` by exactly 1 (not re-derived from history),
advances `currentDay` by 1 when below 100, leaves `currentDay` at 100 when
already there and creates no day-101 record, and touches no other day. -/
theorem completeCurrentDay_spec (s : ChallengeState) (r : DayRecord)
    (hr : s.days s.currentDay = some r) (hall : areAllHabitsCompleted r = true) :
    (completeCurrentDay s).days s.currentDay = some { r with completed := true } ∧
    (completeCurrentDay s).streak = s.streak + 1 ∧
    (s.currentDay < 100 → (completeCurrentDay s).currentDay = s.currentDay + 1) ∧
    (s.currentDay = 100 →
      (completeCurrentDay s).currentDay = 100 ∧
      (completeCurrentDay s).days 101 = s.days 101) ∧
    (∀ d, d ≠ s.currentDay → (completeCurrentDay s).days d = s.days d) := by
  have h2 : (getCurrentDayData s).2 = r := by
    rw [getCurrentDayData_of_some s r hr]
  refine ⟨?_, completeCurrentDay_streak s, ?_, ?_,
    fun d hd => completeCurrentDay_days_ne s d hd⟩
  · rw [completeCurrentDay_days_at, h2]
  · intro hlt
    rw [completeCurrentDay_currentDay, if_pos hlt]
  · intro h100
    constructor
    · rw [completeCurrentDay_currentDay, h100]
      simp
    · exact completeCurrentDay_days_ne s 101 (by rw [h100]; decide)

/-- Witness for C1 at a concrete state: day 1 with all five habits completed. -/
theorem completeCurrentDay_spec_witness :
    c1State.days c1State.currentDay = some fullRec ∧
    areAllHabitsCompleted fullRec = true ∧
    ((completeCurrentDay c1State).days c1State.currentDay =
        some { fullRec with completed := true } ∧
      (completeCurrentDay c1State).streak = c1State.streak + 1 ∧
      (c1State.currentDay < 100 →
        (completeCurrentDay c1State).currentDay = c1State.currentDay + 1) ∧
      (c1State.currentDay = 100 →
        (completeCurrentDay c1State).currentDay = 100 ∧
        (completeCurrentDay c1State).days 101 = c1State.days 101) ∧
      (∀ d, d ≠ c1State.currentDay →
        (completeCurrentDay c1State).days d = c1State.days d)) :=
  ⟨rfl, rfl, completeCurrentDay_spec c1State fullRec rfl rfl⟩

/-- Claim C2: for every habit other than `food` and every set finite value `v`,
`isHabitCompleted` is `true` iff `v ≥ min`; for `food` iff `min ≤ v ≤ max`;
an unset value always yields `false`.  The comparisons are exact comparisons on
the raw (possibly fractional) value, and the same rule shape extends to the
storable non-finite value: `Infinity ≥ min` holds for every minimum-bounded
habit while `min ≤ Infinity ≤ max` fails for `food`, and `-Infinity` meets no
rule. -/
theorem isHabitCompleted_spec :
    (∀ (h : HabitKind) (v : ℚ), h ≠ HabitKind.food →
      (isHabitCompleted h (some (JSNum.num v)) = true ↔ (HABIT_RULES h).min ≤ v)) ∧
    (∀ v : ℚ, isHabitCompleted HabitKind.food (some (JSNum.num v)) = true ↔
      (HABIT_RULES HabitKind.food).min ≤ v ∧ v ≤ 2500) ∧
    (∀ h : HabitKind, isHabitCompleted h none = false) ∧
    (∀ h : HabitKind, h ≠ HabitKind.food →
      isHabitCompleted h (some JSNum.posInf) = true) ∧
    isHabitCompleted HabitKind.food (some JSNum.posInf) = false ∧
    (∀ h : HabitKind, isHabitCompleted h (some JSNum.negInf) = false) := by
  refine ⟨?_, ?_, fun h => rfl, ?_, rfl, fun h => by cases h <;> rfl⟩
  · intro h v hne
    cases h <;> simp [isHabitCompleted, HABIT_RULES, JSNum.le_num_num]
    exact absurd rfl hne
  · intro v
    simp [isHabitCompleted, HABIT_RULES, Option.elim, JSNum.le_num_num]
  · intro h hne
    cases h <;> first | rfl | exact absurd rfl hne

/-- Witness for C2 at `sleep` and the value 8. -/
theorem isHabitCompleted_spec_witness :
    HabitKind.sleep ≠ HabitKind.food ∧
    (isHabitCompleted HabitKind.sleep (some (JSNum.num 8)) = true ↔
      (HABIT_RULES HabitKind.sleep).min ≤ 8) :=
  ⟨by decide, isHabitCompleted_spec.1 HabitKind.sleep 8 (by decide)⟩

/-- An input the validation block accepts: it parses to a non-NaN number that
is not `< 0` under the JS comparison — this includes `Infinity`. -/
def validInput (raw : Option JSNum) : Prop :=
  ∃ v, raw = some v ∧ JSNum.lt v (JSNum.num 0) = false

/-- The validity notion the claim states: the input parses to a finite
number that is `≥ 0`. -/
def parsesToFiniteNonneg (raw : Option JSNum) : Prop :=
  ∃ v : ℚ, raw = some (JSNum.num v) ∧ 0 ≤ v

/-- Claim C4 counterexample: on a locked day, an invalid input (here `-1`)
fails with `InvalidInput`, not `DayLocked` — the validation check runs before
the lock check, so the claim's "every input value" is too strong. -/
theorem saveHabit_locked_invalid_counterexample :
    lockedState.days lockedState.currentDay = some doneRec ∧
    doneRec.completed = true ∧
    (saveHabit lockedState HabitKind.sleep (some (JSNum.num (-1)))).2 =
      some SaveError.InvalidInput ∧
    (saveHabit lockedState HabitKind.sleep (some (JSNum.num (-1)))).2 ≠
      some SaveError.DayLocked := by
  refine ⟨rfl, rfl, ?_, ?_⟩ <;> decide

theorem saveHabit_locked_eq (s : ChallengeState) (r : DayRecord) (h : HabitKind)
    (v : JSNum) (hv : JSNum.lt v (JSNum.num 0) = false)
    (hr : s.days s.currentDay = some r) (hc : r.completed = true) :
    saveHabit s h (some v) = (s, some SaveError.DayLocked) := by
  simp only [saveHabit, hv, Bool.false_eq_true, if_false,
    getCurrentDayData_of_some s r hr, hc, if_pos]

/-- Claim C4 (amended): on a state whose current day's record is completed,
`saveHabit` with any habit kind and any valid (parsed, nonnegative) value
fails with `DayLocked` and returns the state unchanged — in particular the
record's `measurements`, `completedHabits`, `score` and `completed` fields
are untouched.  (An input failing validation reports `InvalidInput` instead.) -/
theorem saveHabit_dayLocked (s : ChallengeState) (r : DayRecord) (h : HabitKind)
    (v : ℚ) (hv : 0 ≤ v) (hr : s.days s.currentDay = some r)
    (hc : r.completed = true) :
    saveHabit s h (some (JSNum.num v)) = (s, some SaveError.DayLocked) :=
  saveHabit_locked_eq s r h (JSNum.num v) (JSNum.num_nonneg_not_lt_zero v hv) hr hc

/-- Witness for the amended C4 on the locked day-1 state with value 8. -/
theorem saveHabit_dayLocked_witness :
    (0 : ℚ) ≤ 8 ∧
    lockedState.days lockedState.currentDay = some doneRec ∧
    doneRec.completed = true ∧
    saveHabit lockedState HabitKind.water (some (JSNum.num 8)) =
      (lockedState, some SaveError.DayLocked) :=
  ⟨by decide, rfl, rfl, saveHabit_dayLocked lockedState doneRec HabitKind.water 8
    (by decide) rfl rfl⟩

/-- Claim C5 counterexample: `parseFloat("1e400")` overflows to `Infinity`,
which does not parse to a finite number, yet the validation
(`isNaN(value) || value < 0`, script.js:162) accepts it: `saveHabit` reports no
error and records `Infinity` as the measurement — `Infinity ≥ 7` even marks
the habit completed.  So an input that does not parse to a finite number `≥ 0`
can succeed rather than fail with `InvalidInput`. -/
theorem saveHabit_infinity_counterexample :
    ¬ parsesToFiniteNonneg (some JSNum.posInf) ∧
    (saveHabit freshState HabitKind.sleep (some JSNum.posInf)).2 ≠
      some SaveError.InvalidInput ∧
    (saveHabit freshState HabitKind.sleep (some JSNum.posInf)).2 = none ∧
    ((saveHabit freshState HabitKind.sleep (some JSNum.posInf)).1.days 1).map
      (fun r => r.measurements HabitKind.sleep) = some (some JSNum.posInf) ∧
    isHabitCompleted HabitKind.sleep (some JSNum.posInf) = true := by
  refine ⟨?_, ?_, rfl, rfl, rfl⟩
  · rintro ⟨v, hv, -⟩
    exact JSNum.noConfusion (Option.some.inj hv)
  · decide

/-- Claim C5 (amended): `saveHabit` fails with `InvalidInput` and leaves the
whole state unchanged exactly when the raw input is `NaN` (does not parse to a
number at all) or parses to a number `< 0`; every other input — nonnegative
finite values, but also `Infinity`, which the `isNaN` check accepts although
it is not finite — is never rejected as `InvalidInput`, so a value is recorded
exactly for the inputs the `isNaN || < 0` check accepts. -/
theorem saveHabit_invalidInput (s : ChallengeState) (h : HabitKind)
    (raw : Option JSNum) :
    (¬ validInput raw → saveHabit s h raw = (s, some SaveError.InvalidInput)) ∧
    (validInput raw → (saveHabit s h raw).2 ≠ some SaveError.InvalidInput) := by
  constructor
  · intro hinv
    match raw with
    | none => rfl
    | some v =>
      have hv : JSNum.lt v (JSNum.num 0) = true := by
        by_contra hge
        exact hinv ⟨v, rfl, Bool.not_eq_true (JSNum.lt v (JSNum.num 0)) ▸ hge⟩
      simp [saveHabit, hv]
  · rintro ⟨v, rfl, hv⟩
    simp only [saveHabit, hv, Bool.false_eq_true, if_false]
    split
    · simp
    · split <;> simp

/-- Witness for the amended C5: `none` (a NaN parse) is invalid and rejected
with the state unchanged; the accepted input 8 is never rejected. -/
theorem saveHabit_invalidInput_witness :
    ¬ validInput (none : Option JSNum) ∧
    saveHabit freshState HabitKind.sleep none =
      (freshState, some SaveError.InvalidInput) ∧
    validInput (some (JSNum.num 8)) ∧
    (saveHabit freshState HabitKind.sleep (some (JSNum.num 8))).2 ≠
      some SaveError.InvalidInput := by
  have hnone : ¬ validInput (none : Option JSNum) := by
    rintro ⟨v, hv, -⟩
    cases hv
  have hvalid : validInput (some (JSNum.num 8)) := ⟨JSNum.num 8, rfl, by decide⟩
  exact ⟨hnone, (saveHabit_invalidInput freshState HabitKind.sleep none).1 hnone,
    hvalid,
    (saveHabit_invalidInput freshState HabitKind.sleep (some (JSNum.num 8))).2 hvalid⟩

/-- The loop condition of the `updateStreak` walk: the day's record exists and
is completed (`dayData && dayData.completed`). -/
def dayCompleted (days : ℕ → Option DayRecord) (d : ℕ) : Bool :=
  match days d with
  | some r => r.completed
  | none => false

theorem streakFrom_some (days : ℕ → Option DayRecord) (n : ℕ) (r : DayRecord)
    (h : days (n + 1) = some r) :
    streakFrom days (n + 1) = if r.completed then streakFrom days n + 1 else 0 := by
  simp only [streakFrom, h]

theorem streakFrom_none (days : ℕ → Option DayRecord) (n : ℕ)
    (h : days (n + 1) = none) : streakFrom days (n + 1) = 0 := by
  simp only [streakFrom, h]

theorem streakFrom_le (days : ℕ → Option DayRecord) : ∀ d, streakFrom days d ≤ d := by
  intro d
  induction d with
  | zero => exact Nat.le_refl 0
  | succ n ih =>
    cases h : days (n + 1) with
    | none =>
      rw [streakFrom_none days n h]
      exact Nat.zero_le _
    | some r =>
      rw [streakFrom_some days n r h]
      split
      · omega
      · exact Nat.zero_le _

theorem streakFrom_run (days : ℕ → Option DayRecord) :
    ∀ d k, k < streakFrom days d → dayCompleted days (d - k) = true := by
  intro d
  induction d with
  | zero =>
    intro k hk
    simp [streakFrom] at hk
  | succ n ih =>
    intro k hk
    cases h : days (n + 1) with
    | none =>
      rw [streakFrom_none days n h] at hk
      omega
    | some r =>
      rw [streakFrom_some days n r h] at hk
      by_cases hc : r.completed = true
      · rw [if_pos hc] at hk
        cases k with
        | zero => simpa [dayCompleted, h] using hc
        | succ j =>
          have hj : j < streakFrom days n := by omega
          simpa [Nat.succ_sub_succ] using ih j hj
      · rw [if_neg hc] at hk
        omega

theorem streakFrom_stop (days : ℕ → Option DayRecord) :
    ∀ d, streakFrom days d = d ∨
      dayCompleted days (d - streakFrom days d) = false := by
  intro d
  induction d with
  | zero => exact Or.inl rfl
  | succ n ih =>
    cases h : days (n + 1) with
    | none =>
      right
      rw [streakFrom_none days n h]
      simp [dayCompleted, h]
    | some r =>
      rw [streakFrom_some days n r h]
      by_cases hc : r.completed = true
      · rw [if_pos hc]
        rcases ih with h1 | h2
        · left
          omega
        · right
          simpa [Nat.succ_sub_succ] using h2
      · rw [if_neg hc]
        right
        simp only [Nat.sub_zero, dayCompleted, h]
        exact Bool.not_eq_true r.completed ▸ hc

/-- Claim C3 counterexample: on the state with days 1..3 completed,
`currentDay = 4` and day 4 absent, `updateStreak` yields `streak = 0`, not 3 —
the backward walk starts at `currentDay` itself and breaks immediately on the
missing day-4 record. -/
theorem updateStreak_scenario_counterexample :
    c3State.currentDay = 4 ∧
    c3State.days 4 = none ∧
    c3State.days 1 = some doneRec ∧
    c3State.days 2 = some doneRec ∧
    c3State.days 3 = some doneRec ∧
    doneRec.completed = true ∧
    (updateStreak c3State).streak = 0 ∧
    (updateStreak c3State).streak ≠ 3 :=
  ⟨rfl, rfl, rfl, rfl, rfl, rfl, rfl, by decide⟩

/-- Claim C3 (amended): `updateStreak` sets `streak` to the length of the
maximal run of days `currentDay, currentDay - 1, ...` whose records exist with
`completed = true`, stopping at the first missing or incomplete day, while
changing nothing else; since the walk starts at `currentDay` itself, the
scenario with days 1..3 completed, `currentDay = 4` and day 4 absent yields
`streak = 0` (not 3). -/
theorem updateStreak_spec (s : ChallengeState) :
    (updateStreak s).streak ≤ s.currentDay ∧
    (∀ k, k < (updateStreak s).streak →
      dayCompleted s.days (s.currentDay - k) = true) ∧
    ((updateStreak s).streak = s.currentDay ∨
      dayCompleted s.days (s.currentDay - (updateStreak s).streak) = false) ∧
    (updateStreak s).currentDay = s.currentDay ∧
    (∀ d, (updateStreak s).days d = s.days d) ∧
    (updateStreak c3State).streak = 0 :=
  ⟨streakFrom_le s.days s.currentDay, streakFrom_run s.days s.currentDay,
    streakFrom_stop s.days s.currentDay, rfl, fun _ => rfl, rfl⟩

/-- Witness for the amended C3 at the locked day-1 state (streak walk finds
exactly the one completed day). -/
theorem updateStreak_spec_witness :
    ((updateStreak lockedState).streak ≤ lockedState.currentDay ∧
      (∀ k, k < (updateStreak lockedState).streak →
        dayCompleted lockedState.days (lockedState.currentDay - k) = true) ∧
      ((updateStreak lockedState).streak = lockedState.currentDay ∨
        dayCompleted lockedState.days
          (lockedState.currentDay - (updateStreak lockedState).streak) = false) ∧
      (updateStreak lockedState).currentDay = lockedState.currentDay ∧
      (∀ d, (updateStreak lockedState).days d = lockedState.days d) ∧
      (updateStreak c3State).streak = 0) ∧
    (updateStreak lockedState).streak = 1 :=
  ⟨updateStreak_spec lockedState, rfl⟩

/-- The blob the counterexample for C9 loads: a stored `currentDay` of 500. -/
def blob500 : StoredBlob :=
  { currentDay := some 500, streak := some 0, days := none, whyStarted := "" }

/-- Claim C9 counterexample: a stored `currentDay` of 500 passes the load-time
check (`typeof === 'number'` and `≥ 1`) untouched, so the normalized
`currentDay` is not in `[1, 100]`. -/
theorem initNormalize_counterexample :
    (initNormalize blob500).currentDay = 500 ∧
    ¬ ((1 : ℚ) ≤ (initNormalize blob500).currentDay ∧
      (initNormalize blob500).currentDay ≤ 100) := by
  constructor
  · decide
  · rintro ⟨-, habs⟩
    rw [show (initNormalize blob500).currentDay = 500 from by decide] at habs
    exact absurd habs (by decide)

/-- Claim C9 (amended): load-time normalization is total and tolerant — a
non-number or `< 1` stored `currentDay` becomes 1, a non-number or `< 0`
stored `streak` becomes 0, and a missing `days` mapping becomes empty, so the
normalized `currentDay` is a number `≥ 1` and `streak` a number `≥ 0`; but no
upper bound (such as 100) is imposed on `currentDay`, and stored numbers are
not forced to be integers. -/
theorem initNormalize_spec (b : StoredBlob) :
    1 ≤ (initNormalize b).currentDay ∧
    0 ≤ (initNormalize b).streak ∧
    (b.currentDay = none → (initNormalize b).currentDay = 1) ∧
    (b.streak = none → (initNormalize b).streak = 0) ∧
    (b.days = none → (initNormalize b).days = fun _ => none) ∧
    (∀ v, b.currentDay = some v → v < 1 → (initNormalize b).currentDay = 1) ∧
    (∀ v, b.streak = some v → v < 0 → (initNormalize b).streak = 0) ∧
    (∀ v, b.currentDay = some v → 1 ≤ v → (initNormalize b).currentDay = v) := by
  refine ⟨?_, ?_, ?_, ?_, ?_, ?_, ?_, ?_⟩
  · cases hb : b.currentDay with
    | none => simp [initNormalize, hb]
    | some v =>
      simp only [initNormalize, hb]
      split
      · exact le_refl 1
      · exact not_lt.1 (by assumption)
  · cases hb : b.streak with
    | none => simp [initNormalize, hb]
    | some v =>
      simp only [initNormalize, hb]
      split
      · exact le_refl 0
      · exact not_lt.1 (by assumption)
  · intro hb
    simp [initNormalize, hb]
  · intro hb
    simp [initNormalize, hb]
  · intro hb
    simp [initNormalize, hb]
  · intro v hb hv
    simp [initNormalize, hb, hv]
  · intro v hb hv
    simp [initNormalize, hb, hv]
  · intro v hb hv
    simp [initNormalize, hb, not_lt.2 hv]

/-- Witness for the amended C9 on a blob with every field malformed. -/
theorem initNormalize_spec_witness :
    (1 ≤ (initNormalize ⟨none, none, none, ""⟩).currentDay ∧
      0 ≤ (initNormalize ⟨none, none, none, ""⟩).streak ∧
      ((⟨none, none, none, ""⟩ : StoredBlob).currentDay = none →
        (initNormalize ⟨none, none, none, ""⟩).currentDay = 1) ∧
      ((⟨none, none, none, ""⟩ : StoredBlob).streak = none →
        (initNormalize ⟨none, none, none, ""⟩).streak = 0) ∧
      ((⟨none, none, none, ""⟩ : StoredBlob).days = none →
        (initNormalize ⟨none, none, none, ""⟩).days = fun _ => none) ∧
      (∀ v, (⟨none, none, none, ""⟩ : StoredBlob).currentDay = some v → v < 1 →
        (initNormalize ⟨none, none, none, ""⟩).currentDay = 1) ∧
      (∀ v, (⟨none, none, none, ""⟩ : StoredBlob).streak = some v → v < 0 →
        (initNormalize ⟨none, none, none, ""⟩).streak = 0) ∧
      (∀ v, (⟨none, none, none, ""⟩ : StoredBlob).currentDay = some v → 1 ≤ v →
        (initNormalize ⟨none, none, none, ""⟩).currentDay = v)) ∧
    (initNormalize ⟨none, none, none, ""⟩).currentDay = 1 :=
  ⟨initNormalize_spec ⟨none, none, none, ""⟩, rfl⟩

/-- A record whose `completedHabits` entries agree with `isHabitCompleted`
applied to its own measurements (the "derived, never set independently"
discipline of the data model). -/
def consistentRecord (r : DayRecord) : Prop :=
  ∀ h, r.completedHabits h = isHabitCompleted h (r.measurements h)

/-- The day score recomputed from the `completedHabits` flags
(`Σ (20 if completedHabits[h] else 0)`). -/
def scoreOf (r : DayRecord) : ℕ :=
  habitsList.foldl (fun acc habit =>
    acc + (if r.completedHabits habit then POINTS_PER_HABIT else 0)) 0

theorem calculateDayScore_eq_scoreOf (r : DayRecord) (hr : consistentRecord r) :
    calculateDayScore r = scoreOf r := by
  simp only [calculateDayScore, scoreOf, habitsList, List.foldl, calculateHabitScore]
  rw [hr HabitKind.sleep, hr HabitKind.water, hr HabitKind.workout, hr HabitKind.study,
    hr HabitKind.food]

/-- A record with no measurements but all `completedHabits` flags raised:
its recomputed score is 0 although `areAllHabitsCompleted` holds. -/
def badRec : DayRecord := { defaultRecord with completedHabits := fun _ => true }

/-- Claim C7 counterexample: `calculateDayScore` reads the measurements while
`areAllHabitsCompleted` reads the `completedHabits` flags, so on a record
where the two disagree the claimed equivalence `score = 100 ↔ all completed`
fails. -/
theorem dayScore_allCompleted_counterexample :
    calculateDayScore badRec = 0 ∧
    areAllHabitsCompleted badRec = true ∧
    ¬ (calculateDayScore badRec = 100 ↔ areAllHabitsCompleted badRec = true) := by
  refine ⟨rfl, rfl, fun hiff => ?_⟩
  have h100 : calculateDayScore badRec = 100 := hiff.2 rfl
  exact absurd h100 (by decide)

/-- Claim C7 (amended): for every `DayRecord`, `calculateDayScore` is a
multiple of 20 and lies in `[0, 100]`; and for every `DayRecord` whose
`completedHabits` flags are consistent with its measurements — as holds for
every record the code builds — it equals 100 iff `areAllHabitsCompleted`. -/
theorem dayScore_spec (r : DayRecord) :
    20 ∣ calculateDayScore r ∧
    calculateDayScore r ≤ 100 ∧
    (consistentRecord r →
      (calculateDayScore r = 100 ↔ areAllHabitsCompleted r = true)) := by
  have hb : 20 ∣ calculateDayScore r ∧ calculateDayScore r ≤ 100 := by
    simp only [calculateDayScore, habitsList, List.foldl, calculateHabitScore,
      POINTS_PER_HABIT]
    cases isHabitCompleted HabitKind.sleep (r.measurements HabitKind.sleep) <;>
      cases isHabitCompleted HabitKind.water (r.measurements HabitKind.water) <;>
      cases isHabitCompleted HabitKind.workout (r.measurements HabitKind.workout) <;>
      cases isHabitCompleted HabitKind.study (r.measurements HabitKind.study) <;>
      cases isHabitCompleted HabitKind.food (r.measurements HabitKind.food) <;>
      decide
  refine ⟨hb.1, hb.2, fun hr => ?_⟩
  rw [calculateDayScore_eq_scoreOf r hr]
  simp only [scoreOf, areAllHabitsCompleted, habitsList, List.foldl, List.all_cons,
    List.all_nil, POINTS_PER_HABIT]
  cases r.completedHabits HabitKind.sleep <;>
    cases r.completedHabits HabitKind.water <;>
    cases r.completedHabits HabitKind.workout <;>
    cases r.completedHabits HabitKind.study <;>
    cases r.completedHabits HabitKind.food <;>
    decide

/-- Witness for the amended C7 at the default record: the unconditional score
bounds hold, the record is consistent, and the guarded equivalence applies. -/
theorem dayScore_spec_witness :
    consistentRecord defaultRecord ∧
    (20 ∣ calculateDayScore defaultRecord ∧
      calculateDayScore defaultRecord ≤ 100 ∧
      (consistentRecord defaultRecord →
        (calculateDayScore defaultRecord = 100 ↔
          areAllHabitsCompleted defaultRecord = true))) :=
  ⟨fun _ => rfl, dayScore_spec defaultRecord⟩

theorem completeCurrentDay_keeps_completed (s : ChallengeState) (d : ℕ) (r : DayRecord)
    (hr : s.days d = some r) (hc : r.completed = true) :
    ∃ r2, (completeCurrentDay s).days d = some r2 ∧ r2.completed = true := by
  by_cases hd : d = s.currentDay
  · subst hd
    exact ⟨{ (getCurrentDayData s).2 with completed := true },
      completeCurrentDay_days_at s, rfl⟩
  · exact ⟨r, by rw [completeCurrentDay_days_ne s d hd, hr], hc⟩

/-- The state after the mutation block of `saveHabit` on the unlocked path,
before the all-habits check. -/
def savedState (s : ChallengeState) (h : HabitKind) (v : JSNum) : ChallengeState :=
  { (getCurrentDayData s).1 with
    days := setDay (getCurrentDayData s).1.days (getCurrentDayData s).1.currentDay
      (applyHabit (getCurrentDayData s).2 h v) }

theorem saveHabit_eq_of_locked (s : ChallengeState) (h : HabitKind) (v : JSNum)
    (hv : JSNum.lt v (JSNum.num 0) = false)
    (hcc : (getCurrentDayData s).2.completed = true) :
    saveHabit s h (some v) = ((getCurrentDayData s).1, some SaveError.DayLocked) := by
  simp only [saveHabit, hv, Bool.false_eq_true, if_false, hcc, if_pos]

theorem saveHabit_eq_of_unlocked (s : ChallengeState) (h : HabitKind) (v : JSNum)
    (hv : JSNum.lt v (JSNum.num 0) = false)
    (hcc : (getCurrentDayData s).2.completed = false) :
    saveHabit s h (some v) =
      (if areAllHabitsCompleted (applyHabit (getCurrentDayData s).2 h v)
        then completeCurrentDay (savedState s h v) else savedState s h v, none) := by
  simp only [saveHabit, hv, hcc, Bool.false_eq_true, if_false, savedState]
  by_cases hall : areAllHabitsCompleted (applyHabit (getCurrentDayData s).2 h v) = true
  · rw [if_pos hall, if_pos hall]
  · rw [if_neg hall, if_neg hall]

theorem savedState_currentDay (s : ChallengeState) (h : HabitKind) (v : JSNum) :
    (savedState s h v).currentDay = s.currentDay :=
  getCurrentDayData_fst_currentDay s

theorem savedState_streak (s : ChallengeState) (h : HabitKind) (v : JSNum) :
    (savedState s h v).streak = s.streak :=
  getCurrentDayData_fst_streak s

theorem savedState_whyStarted (s : ChallengeState) (h : HabitKind) (v : JSNum) :
    (savedState s h v).whyStarted = s.whyStarted :=
  getCurrentDayData_fst_whyStarted s

theorem savedState_days_at (s : ChallengeState) (h : HabitKind) (v : JSNum) :
    (savedState s h v).days s.currentDay =
      some (applyHabit (getCurrentDayData s).2 h v) := by
  show setDay _ (getCurrentDayData s).1.currentDay _ s.currentDay = _
  rw [getCurrentDayData_fst_currentDay, setDay_same]

theorem savedState_days_ne (s : ChallengeState) (h : HabitKind) (v : JSNum) (d : ℕ)
    (hd : d ≠ s.currentDay) : (savedState s h v).days d = s.days d := by
  show setDay _ (getCurrentDayData s).1.currentDay _ d = _
  rw [getCurrentDayData_fst_currentDay, setDay_ne _ _ _ _ hd]
  exact getCurrentDayData_fst_days_ne s d hd

theorem saveHabit_days_ne (s : ChallengeState) (h : HabitKind) (raw : Option JSNum)
    (d : ℕ) (hd : d ≠ s.currentDay) :
    (saveHabit s h raw).1.days d = s.days d := by
  match raw with
  | none => rfl
  | some v =>
    by_cases hv : JSNum.lt v (JSNum.num 0) = true
    · simp only [saveHabit, if_pos hv]
    · have hv : JSNum.lt v (JSNum.num 0) = false :=
        Bool.not_eq_true (JSNum.lt v (JSNum.num 0)) ▸ hv
      cases hcc : (getCurrentDayData s).2.completed with
      | true =>
        rw [saveHabit_eq_of_locked s h v hv hcc]
        exact getCurrentDayData_fst_days_ne s d hd
      | false =>
        rw [saveHabit_eq_of_unlocked s h v hv hcc]
        have hd2 : d ≠ (savedState s h v).currentDay := by
          rw [savedState_currentDay]
          exact hd
        by_cases hall :
            areAllHabitsCompleted (applyHabit (getCurrentDayData s).2 h v) = true
        · show (if areAllHabitsCompleted (applyHabit (getCurrentDayData s).2 h v)
              then completeCurrentDay (savedState s h v) else savedState s h v).days d
            = s.days d
          rw [if_pos hall, completeCurrentDay_days_ne _ d hd2, savedState_days_ne _ _ _ d hd]
        · show (if areAllHabitsCompleted (applyHabit (getCurrentDayData s).2 h v)
              then completeCurrentDay (savedState s h v) else savedState s h v).days d
            = s.days d
          rw [if_neg hall, savedState_days_ne _ _ _ d hd]

theorem saveHabit_keeps_completed (s : ChallengeState) (d : ℕ) (r : DayRecord)
    (h : HabitKind) (raw : Option JSNum)
    (hr : s.days d = some r) (hc : r.completed = true) :
    ∃ r1, (saveHabit s h raw).1.days d = some r1 ∧ r1.completed = true := by
  by_cases hd : d = s.currentDay
  · subst hd
    match raw with
    | none => exact ⟨r, hr, hc⟩
    | some v =>
      by_cases hv : JSNum.lt v (JSNum.num 0) = true
      · exact ⟨r, by simp only [saveHabit, if_pos hv]; exact hr, hc⟩
      · rw [saveHabit_locked_eq s r h v
          (Bool.not_eq_true (JSNum.lt v (JSNum.num 0)) ▸ hv) hr hc]
        exact ⟨r, hr, hc⟩
  · rw [saveHabit_days_ne s h raw d hd]
    exact ⟨r, hr, hc⟩

/-- Claim C8: a day's `completed = true` flag is monotonic — for every state
and day whose record is completed, `saveHabit` (with any habit and input) and
`completeCurrentDay` leave that day's record present and completed, and
`updateStreak` leaves it untouched; only `restartChallenge` removes it, by
discarding all day records. -/
theorem completed_monotonic (s : ChallengeState) (d : ℕ) (r : DayRecord)
    (h : HabitKind) (raw : Option JSNum) (b : Bool)
    (hr : s.days d = some r) (hc : r.completed = true) :
    (∃ r1, (saveHabit s h raw).1.days d = some r1 ∧ r1.completed = true) ∧
    (∃ r2, (completeCurrentDay s).days d = some r2 ∧ r2.completed = true) ∧
    (updateStreak s).days d = some r ∧
    (restartChallenge s b).days d = none :=
  ⟨saveHabit_keeps_completed s d r h raw hr hc,
    completeCurrentDay_keeps_completed s d r hr hc, hr, rfl⟩

/-- Witness for C8 on the locked day-1 state. -/
theorem completed_monotonic_witness :
    lockedState.days 1 = some doneRec ∧
    doneRec.completed = true ∧
    ((∃ r1, (saveHabit lockedState HabitKind.sleep
        (some (JSNum.num 8))).1.days 1 = some r1 ∧
        r1.completed = true) ∧
      (∃ r2, (completeCurrentDay lockedState).days 1 = some r2 ∧
        r2.completed = true) ∧
      (updateStreak lockedState).days 1 = some doneRec ∧
      (restartChallenge lockedState true).days 1 = none) :=
  ⟨rfl, rfl,
    completed_monotonic lockedState 1 doneRec HabitKind.sleep (some (JSNum.num 8))
      true rfl rfl⟩

theorem areAllHabitsCompleted_set_completed (r : DayRecord) (b : Bool) :
    areAllHabitsCompleted { r with completed := b } = areAllHabitsCompleted r := rfl

theorem getCurrentDayData_not_completed (s : ChallengeState)
    (hnl : ∀ r, s.days s.currentDay = some r → r.completed = false) :
    (getCurrentDayData s).2.completed = false := by
  cases hsd : s.days s.currentDay with
  | some r =>
    rw [getCurrentDayData_of_some s r hsd]
    exact hnl r hsd
  | none =>
    rw [getCurrentDayData_of_none s hsd]
    rfl

theorem getCurrentDayData_savedState (s : ChallengeState) (h : HabitKind) (v : JSNum) :
    getCurrentDayData (savedState s h v) =
      (savedState s h v, applyHabit (getCurrentDayData s).2 h v) :=
  getCurrentDayData_of_some _ _ (by
    rw [savedState_currentDay]
    exact savedState_days_at s h v)

/-- Claim C10: on a state whose current day is not completed, recording a valid
value for habit `h` leaves every other day's record, the motivation text, and
the other four habits' `measurements`/`completedHabits` entries of the current
record unchanged; `streak` and `currentDay` change only when the updated
record has all five habits completed (the `completeCurrentDay` path). -/
theorem saveHabit_frame (s : ChallengeState) (h : HabitKind) (v : ℚ) (hv : 0 ≤ v)
    (hnl : ∀ r, s.days s.currentDay = some r → r.completed = false) :
    (∀ d, d ≠ s.currentDay →
      (saveHabit s h (some (JSNum.num v))).1.days d = s.days d) ∧
    (saveHabit s h (some (JSNum.num v))).1.whyStarted = s.whyStarted ∧
    (∃ r', (saveHabit s h (some (JSNum.num v))).1.days s.currentDay = some r' ∧
      (∀ r, s.days s.currentDay = some r → ∀ h', h' ≠ h →
        r'.measurements h' = r.measurements h' ∧
        r'.completedHabits h' = r.completedHabits h') ∧
      (areAllHabitsCompleted r' = false →
        (saveHabit s h (some (JSNum.num v))).1.streak = s.streak ∧
        (saveHabit s h (some (JSNum.num v))).1.currentDay = s.currentDay)) := by
  have hv' : JSNum.lt (JSNum.num v) (JSNum.num 0) = false :=
    JSNum.num_nonneg_not_lt_zero v hv
  have hcc : (getCurrentDayData s).2.completed = false :=
    getCurrentDayData_not_completed s hnl
  have hframe : ∀ r, s.days s.currentDay = some r → ∀ h', h' ≠ h →
      (applyHabit (getCurrentDayData s).2 h (JSNum.num v)).measurements h' =
        r.measurements h' ∧
      (applyHabit (getCurrentDayData s).2 h (JSNum.num v)).completedHabits h' =
        r.completedHabits h' := by
    intro r hsd h' hne
    rw [getCurrentDayData_of_some s r hsd]
    exact ⟨applyHabit_measurements_ne r h h' (JSNum.num v) hne,
      applyHabit_completedHabits_ne r h h' (JSNum.num v) hne⟩
  refine ⟨fun d hd => saveHabit_days_ne s h (some (JSNum.num v)) d hd, ?_, ?_⟩
  · by_cases hall : areAllHabitsCompleted
        (applyHabit (getCurrentDayData s).2 h (JSNum.num v)) = true
    · have h1 : (saveHabit s h (some (JSNum.num v))).1 =
          completeCurrentDay (savedState s h (JSNum.num v)) := by
        rw [saveHabit_eq_of_unlocked s h (JSNum.num v) hv' hcc, if_pos hall]
      rw [h1, completeCurrentDay_whyStarted, savedState_whyStarted]
    · have h1 : (saveHabit s h (some (JSNum.num v))).1 =
          savedState s h (JSNum.num v) := by
        rw [saveHabit_eq_of_unlocked s h (JSNum.num v) hv' hcc, if_neg hall]
      rw [h1, savedState_whyStarted]
  · by_cases hall : areAllHabitsCompleted
        (applyHabit (getCurrentDayData s).2 h (JSNum.num v)) = true
    · have h1 : (saveHabit s h (some (JSNum.num v))).1 =
          completeCurrentDay (savedState s h (JSNum.num v)) := by
        rw [saveHabit_eq_of_unlocked s h (JSNum.num v) hv' hcc, if_pos hall]
      have h3 := completeCurrentDay_days_at (savedState s h (JSNum.num v))
      rw [savedState_currentDay, getCurrentDayData_savedState] at h3
      refine ⟨{ applyHabit (getCurrentDayData s).2 h (JSNum.num v) with
          completed := true },
        by rw [h1]; exact h3, ?_, ?_⟩
      · intro r hsd h' hne
        exact hframe r hsd h' hne
      · intro habs
        rw [areAllHabitsCompleted_set_completed] at habs
        rw [habs] at hall
        exact absurd hall (by decide)
    · have h1 : (saveHabit s h (some (JSNum.num v))).1 =
          savedState s h (JSNum.num v) := by
        rw [saveHabit_eq_of_unlocked s h (JSNum.num v) hv' hcc, if_neg hall]
      refine ⟨applyHabit (getCurrentDayData s).2 h (JSNum.num v),
        by rw [h1]; exact savedState_days_at s h (JSNum.num v), hframe, fun _ => ?_⟩
      rw [h1]
      exact ⟨savedState_streak s h (JSNum.num v), savedState_currentDay s h (JSNum.num v)⟩

/-- Witness for C10: fresh state, record sleep = 8 (Scenario A shape). -/
theorem saveHabit_frame_witness :
    (0 : ℚ) ≤ 8 ∧
    (∀ r, freshState.days freshState.currentDay = some r → r.completed = false) ∧
    ((∀ d, d ≠ freshState.currentDay →
        (saveHabit freshState HabitKind.sleep (some (JSNum.num 8))).1.days d = freshState.days d) ∧
      (saveHabit freshState HabitKind.sleep (some (JSNum.num 8))).1.whyStarted =
        freshState.whyStarted ∧
      (∃ r', (saveHabit freshState HabitKind.sleep (some (JSNum.num 8))).1.days
          freshState.currentDay = some r' ∧
        (∀ r, freshState.days freshState.currentDay = some r → ∀ h', h' ≠ HabitKind.sleep →
          r'.measurements h' = r.measurements h' ∧
          r'.completedHabits h' = r.completedHabits h') ∧
        (areAllHabitsCompleted r' = false →
          (saveHabit freshState HabitKind.sleep (some (JSNum.num 8))).1.streak = freshState.streak ∧
          (saveHabit freshState HabitKind.sleep (some (JSNum.num 8))).1.currentDay =
            freshState.currentDay))) :=
  ⟨by decide, fun _ hr => Option.noConfusion hr,
    saveHabit_frame freshState HabitKind.sleep 8 (by decide)
      (fun _ hr => Option.noConfusion hr)⟩

/-! ### Reachable-state invariants (C6) -/

/-- A record is well-formed when its `completedHabits` flags are consistent
with its measurements, its `score` is the recomputed day score, and the
`completed` lock implies every habit flag. -/
def recordWF (r : DayRecord) : Prop :=
  consistentRecord r ∧ r.score = calculateDayScore r ∧
  (r.completed = true → ∀ h, r.completedHabits h = true)

/-- Every record present in the day map is well-formed. -/
def stateWF (s : ChallengeState) : Prop := ∀ d r, s.days d = some r → recordWF r

/-- States reachable from the fresh state through the core operations:
day-record default creation, `saveHabit` (which internally performs
`completeCurrentDay`), `updateStreak` and `restartChallenge`. -/
inductive Reachable : ChallengeState → Prop where
  | fresh : Reachable freshState
  | touch (s : ChallengeState) : Reachable s → Reachable (getCurrentDayData s).1
  | save (s : ChallengeState) (h : HabitKind) (raw : Option JSNum) :
      Reachable s → Reachable (saveHabit s h raw).1
  | streak (s : ChallengeState) : Reachable s → Reachable (updateStreak s)
  | restart (s : ChallengeState) (b : Bool) : Reachable s → Reachable (restartChallenge s b)

theorem mem_habitsList (h : HabitKind) : h ∈ habitsList := by
  cases h <;> simp [habitsList]

theorem areAllHabitsCompleted_forall (r : DayRecord)
    (hall : areAllHabitsCompleted r = true) : ∀ h, r.completedHabits h = true := by
  intro h
  exact List.all_eq_true.mp hall h (mem_habitsList h)

theorem recordWF_default : recordWF defaultRecord :=
  ⟨fun _ => rfl, rfl, fun habs => absurd habs (by decide)⟩

theorem stateWF_fresh : stateWF freshState :=
  fun _ _ hr => Option.noConfusion hr

theorem stateWF_touch (s : ChallengeState) (hs : stateWF s) :
    stateWF (getCurrentDayData s).1 := by
  cases hsd : s.days s.currentDay with
  | some r0 =>
    rw [getCurrentDayData_of_some s r0 hsd]
    exact hs
  | none =>
    rw [getCurrentDayData_of_none s hsd]
    intro d r hr
    have hr' : setDay s.days s.currentDay defaultRecord d = some r := hr
    by_cases hd : d = s.currentDay
    · rw [hd, setDay_same] at hr'
      cases hr'
      exact recordWF_default
    · rw [setDay_ne _ _ _ _ hd] at hr'
      exact hs d r hr'

theorem recordWF_gcd (s : ChallengeState) (hs : stateWF s) :
    recordWF (getCurrentDayData s).2 := by
  cases hsd : s.days s.currentDay with
  | some r0 =>
    rw [getCurrentDayData_of_some s r0 hsd]
    exact hs s.currentDay r0 hsd
  | none =>
    rw [getCurrentDayData_of_none s hsd]
    exact recordWF_default

theorem recordWF_applyHabit (r : DayRecord) (h : HabitKind) (v : JSNum)
    (hwf : recordWF r) (hc : r.completed = false) :
    recordWF (applyHabit r h v) := by
  refine ⟨?_, rfl, ?_⟩
  · intro h'
    by_cases hne : h' = h
    · rw [hne, applyHabit_completedHabits_self, applyHabit_measurements_self]
    · rw [applyHabit_completedHabits_ne r h h' v hne,
        applyHabit_measurements_ne r h h' v hne]
      exact hwf.1 h'
  · intro habs
    rw [applyHabit_completed, hc] at habs
    exact absurd habs (by decide)

theorem stateWF_completeCurrentDay (s : ChallengeState) (hs : stateWF s)
    (hall : areAllHabitsCompleted (getCurrentDayData s).2 = true) :
    stateWF (completeCurrentDay s) := by
  intro d r hr
  by_cases hd : d = s.currentDay
  · rw [hd, completeCurrentDay_days_at] at hr
    cases hr
    have p2wf := recordWF_gcd s hs
    refine ⟨fun h' => p2wf.1 h', p2wf.2.1, fun _ h' => ?_⟩
    exact areAllHabitsCompleted_forall _ hall h'
  · rw [completeCurrentDay_days_ne s d hd] at hr
    exact hs d r hr

theorem stateWF_saveHabit (s : ChallengeState) (h : HabitKind) (raw : Option JSNum)
    (hs : stateWF s) : stateWF (saveHabit s h raw).1 := by
  match raw with
  | none => exact hs
  | some v =>
    by_cases hv : JSNum.lt v (JSNum.num 0) = true
    · simpa only [saveHabit, if_pos hv] using hs
    · have hv : JSNum.lt v (JSNum.num 0) = false :=
        Bool.not_eq_true (JSNum.lt v (JSNum.num 0)) ▸ hv
      cases hcc : (getCurrentDayData s).2.completed with
      | true =>
        rw [saveHabit_eq_of_locked s h v hv hcc]
        exact stateWF_touch s hs
      | false =>
        rw [saveHabit_eq_of_unlocked s h v hv hcc]
        have hA : recordWF (applyHabit (getCurrentDayData s).2 h v) :=
          recordWF_applyHabit _ h v (recordWF_gcd s hs) hcc
        have hsaved : stateWF (savedState s h v) := by
          intro d r hr
          have hr' : setDay (getCurrentDayData s).1.days
              (getCurrentDayData s).1.currentDay
              (applyHabit (getCurrentDayData s).2 h v) d = some r := hr
          by_cases hd : d = (getCurrentDayData s).1.currentDay
          · rw [hd, setDay_same] at hr'
            cases hr'
            exact hA
          · rw [setDay_ne _ _ _ _ hd] at hr'
            exact stateWF_touch s hs d r hr'
        by_cases hall :
            areAllHabitsCompleted (applyHabit (getCurrentDayData s).2 h v) = true
        · show stateWF (if areAllHabitsCompleted (applyHabit (getCurrentDayData s).2 h v)
            then completeCurrentDay (savedState s h v) else savedState s h v)
          rw [if_pos hall]
          exact stateWF_completeCurrentDay _ hsaved
            (by rw [getCurrentDayData_savedState]; exact hall)
        · show stateWF (if areAllHabitsCompleted (applyHabit (getCurrentDayData s).2 h v)
            then completeCurrentDay (savedState s h v) else savedState s h v)
          rw [if_neg hall]
          exact hsaved

theorem stateWF_reachable (s : ChallengeState) (hs : Reachable s) : stateWF s := by
  induction hs with
  | fresh => exact stateWF_fresh
  | touch s' _ ih => exact stateWF_touch s' ih
  | save s' h raw _ ih => exact stateWF_saveHabit s' h raw ih
  | streak s' _ ih => exact fun d r hr => ih d r hr
  | restart s' b _ ih => exact fun _ _ hr => Option.noConfusion hr

/-- Claim C6: every day record of a state reachable from the fresh state via
default creation, `saveHabit` (including its internal `completeCurrentDay`),
`updateStreak`, and `restartChallenge` satisfies both data-model invariants:
`score = Σ (20 if completedHabits[h] else 0)` and
`completed = true → all completedHabits[h] = true`. -/
theorem reachable_record_invariants (s : ChallengeState) (hs : Reachable s)
    (d : ℕ) (r : DayRecord) (hr : s.days d = some r) :
    r.score = scoreOf r ∧ (r.completed = true → ∀ h, r.completedHabits h = true) := by
  obtain ⟨hcons, hscore, hcompl⟩ := stateWF_reachable s hs d r hr
  exact ⟨hscore.trans (calculateDayScore_eq_scoreOf r hcons), hcompl⟩

/-- Witness for C6: the state after recording sleep = 8 on the fresh state is
reachable, its day-1 record exists, and it satisfies both invariants. -/
theorem reachable_record_invariants_witness :
    Reachable (saveHabit freshState HabitKind.sleep (some (JSNum.num 8))).1 ∧
    (saveHabit freshState HabitKind.sleep (some (JSNum.num 8))).1.days 1 =
      some (applyHabit defaultRecord HabitKind.sleep (JSNum.num 8)) ∧
    ((applyHabit defaultRecord HabitKind.sleep (JSNum.num 8)).score =
        scoreOf (applyHabit defaultRecord HabitKind.sleep (JSNum.num 8)) ∧
      ((applyHabit defaultRecord HabitKind.sleep (JSNum.num 8)).completed = true →
        ∀ h, (applyHabit defaultRecord HabitKind.sleep (JSNum.num 8)).completedHabits h = true)) :=
  ⟨Reachable.save freshState HabitKind.sleep (some (JSNum.num 8)) Reachable.fresh, rfl,
    reachable_record_invariants (saveHabit freshState HabitKind.sleep (some (JSNum.num 8))).1
      (Reachable.save freshState HabitKind.sleep (some (JSNum.num 8)) Reachable.fresh) 1
      (applyHabit defaultRecord HabitKind.sleep (JSNum.num 8)) rfl⟩
